import Mathlib

/-!
Shallow embedding of the pengu airdrop-eligibility checker
(`src/checker.js`, with the legacy variant from `src/unnamed/part_000`).

Strings from the JavaScript side are modelled as `List Char`; byte arrays
(`Uint8Array`) as `List Nat` with values below 256; JavaScript numbers that
hold token totals as `Int`.  Network calls are modelled by environment-provided
outcomes; the two cryptographic primitives that cannot be computed here
(the ethers address derivation and the ed25519 public-key consistency check of
`Keypair.fromSecretKey`) are abstracted as oracle parameters of the
environment.  Everything else is translated directly from the source.
-/

set_option maxRecDepth 4096

deriving instance DecidableEq for Except

/-- `c` is an ASCII hex digit (the character class of the regexes
`/^[0-9a-fA-F]{64}$/`, `/^[0-9a-fA-F]{128}$/` in `getWalletData`). -/
def isHexDigitCh (c : Char) : Bool :=
  (48 ≤ c.toNat && c.toNat ≤ 57) || (97 ≤ c.toNat && c.toNat ≤ 102) ||
    (65 ≤ c.toNat && c.toNat ≤ 70)

/-- ASCII whitespace trimmed by JavaScript `String.prototype.trim`
(modelled on the ASCII subset actually occurring in key files). -/
def isWhitespaceCh (c : Char) : Bool :=
  c == ' ' || c == '\t' || c == '\n' || c == '\r' || c == '\x0b' || c == '\x0c'

/-- Model of `String.prototype.trim`. -/
def jsTrim (s : List Char) : List Char :=
  ((s.dropWhile isWhitespaceCh).reverse.dropWhile isWhitespaceCh).reverse

/-- Numeric value of a hex digit. -/
def hexDigitVal (c : Char) : Nat :=
  if 48 ≤ c.toNat && c.toNat ≤ 57 then c.toNat - 48
  else if 97 ≤ c.toNat && c.toNat ≤ 102 then c.toNat - 87
  else if 65 ≤ c.toNat && c.toNat ≤ 70 then c.toNat - 55
  else 0

/-- Value of a hex string read as a big-endian number. -/
def hexToNat (s : List Char) : Nat :=
  s.foldl (fun a c => a * 16 + hexDigitVal c) 0

/-- Model of `privateKey.trim().replace('0x', '')` in `getWalletData`:
JavaScript `replace` with a string pattern removes only the FIRST occurrence
of `"0x"`, wherever it occurs. -/
def removeFirstOx : List Char → List Char
  | [] => []
  | [c] => [c]
  | c :: c2 :: rest =>
    if c == '0' && c2 == 'x' then rest else c :: removeFirstOx (c2 :: rest)

/-- The test `/^[0-9a-fA-F]{64}$/.test(cleanKey)` in `getWalletData`. -/
def isHex64 (s : List Char) : Bool :=
  s.length == 64 && s.all isHexDigitCh

/-- The test `/^[0-9a-fA-F]{128}$/.test(privateKey)` in `getWalletData`. -/
def isHex128 (s : List Char) : Bool :=
  s.length == 128 && s.all isHexDigitCh

/-- Model of `isValidEthereumAddress` (`/^0x[a-fA-F0-9]{40}$/.test(address)`). -/
def isValidEthereumAddress : List Char → Bool
  | '0' :: 'x' :: rest => rest.length == 40 && rest.all isHexDigitCh
  | _ => false

/-- The bracket test `privateKey.startsWith('[') && privateKey.endsWith(']')`. -/
def isBracketed (s : List Char) : Bool :=
  (s.head? == some '[') && (s.getLast? == some ']')

/-- Order of the secp256k1 group: `new Wallet(key)` (ethers) accepts exactly
the keys whose value is nonzero and below this order. -/
def secp256k1Order : Nat :=
  0xFFFFFFFFFFFFFFFFFFFFFFFFFFFFFFFEBAAEDCE6AF48A03BBFD25E8CD0364141

/-- Success condition of `new Wallet(cleanKey)` on a 64-hex-digit key:
the scalar must be a valid secp256k1 private key. -/
def ethKeyOk (clean : List Char) : Bool :=
  (0 < hexToNat clean : Bool) && (hexToNat clean < secp256k1Order : Bool)

/-- The bitcoin base58 alphabet used by the `base-58` npm package. -/
def base58Alphabet : List Char :=
  "123456789ABCDEFGHJKLMNPQRSTUVWXYZabcdefghijkmnopqrstuvwxyz".toList

/-- Index of a character in the base58 alphabet; `none` on a non-alphabet
character (on which `Base58.decode` throws). -/
def base58DigitVal (c : Char) : Option Nat :=
  base58Alphabet.findIdx? (fun a => a == c)

/-- Big-endian byte expansion, fuelled so the kernel can evaluate it; the
fuel only needs to dominate the number of digits. -/
def natToBEBytesAux : Nat → Nat → List Nat
  | 0, _ => []
  | fuel + 1, n => if n == 0 then [] else natToBEBytesAux fuel (n / 256) ++ [n % 256]

/-- Big-endian byte expansion of a natural number (no leading zero byte).
`n` itself is always enough fuel. -/
def natToBEBytes (n : Nat) : List Nat := natToBEBytesAux n n

/-- Model of `Base58.decode`: leading `'1'` characters become leading zero
bytes, the remainder is the big-endian expansion of the base58 value. -/
def base58Decode (s : List Char) : Option (List Nat) :=
  match s.mapM base58DigitVal with
  | none => none
  | some ds =>
    some (List.replicate (s.takeWhile (fun c => c == '1')).length 0 ++
      natToBEBytes (ds.foldl (fun a d => a * 58 + d) 0))

/-- Base58 digit expansion, fuelled like `natToBEBytesAux`. -/
def natToBase58Aux : Nat → Nat → List Char
  | 0, _ => []
  | fuel + 1, n =>
    if n == 0 then []
    else natToBase58Aux fuel (n / 58) ++ [base58Alphabet.getD (n % 58) '1']

/-- Base58 digits of a natural number (no leading `'1'`). -/
def natToBase58 (n : Nat) : List Char := natToBase58Aux n n

/-- Model of base58 encoding, used by `keypair.publicKey.toString()`. -/
def base58Encode (b : List Nat) : List Char :=
  List.replicate (b.takeWhile (fun x => x == 0)).length '1' ++
    natToBase58 (b.foldl (fun a x => a * 256 + x) 0)

/-- JSON whitespace. -/
def jsonWsCh (c : Char) : Bool :=
  c == ' ' || c == '\t' || c == '\n' || c == '\r'

/-- Skip JSON whitespace. -/
def skipWs (s : List Char) : List Char := s.dropWhile jsonWsCh

/-- ASCII decimal digit. -/
def isDigitCh (c : Char) : Bool := 48 ≤ c.toNat && c.toNat ≤ 57

/-- Decimal value of a digit string. -/
def digitsVal (ds : List Char) : Nat :=
  ds.foldl (fun a c => a * 10 + (c.toNat - 48)) 0

/-- Parse one JSON number (optional sign, integer part, optional fraction;
the fractional part is discarded, matching the truncation toward zero that
`Uint8Array`'s ToUint8 coercion applies; exponent notation is not modelled). -/
def parseJsonNumber (s : List Char) : Option (Int × List Char) :=
  let p : Bool × List Char :=
    match s with
    | '-' :: r => (true, r)
    | _ => (false, s)
  let ds := p.2.takeWhile isDigitCh
  if ds.isEmpty then none
  else
    let rest := p.2.drop ds.length
    let v : Int := if p.1 then -(Int.ofNat (digitsVal ds)) else Int.ofNat (digitsVal ds)
    match rest with
    | '.' :: r2 =>
      let fs := r2.takeWhile isDigitCh
      if fs.isEmpty then none else some (v, r2.drop fs.length)
    | _ => some (v, rest)

/-- Parse the comma-separated elements of a JSON numeric array, up to and
including the closing bracket.  The fuel argument bounds recursion by the
input length. -/
def parseElems : Nat → List Char → Option (List Int × List Char)
  | 0, _ => none
  | fuel + 1, s =>
    match parseJsonNumber (skipWs s) with
    | none => none
    | some (v, rest) =>
      match skipWs rest with
      | ',' :: r2 =>
        match parseElems fuel r2 with
        | some (vs, r3) => some (v :: vs, r3)
        | none => none
      | ']' :: r2 => some ([v], r2)
      | _ => none

/-- Model of `JSON.parse` restricted to the flat numeric arrays used as
Solana secret keys (the only JSON values a bracket-delimited key line can
denote); anything else fails like a JSON syntax error. -/
def parseJsonIntArray (s : List Char) : Option (List Int) :=
  match skipWs s with
  | '[' :: r =>
    match skipWs r with
    | ']' :: r2 => if (skipWs r2).isEmpty then some [] else none
    | r1 =>
      match parseElems (s.length + 1) r1 with
      | some (vs, rest) => if (skipWs rest).isEmpty then some vs else none
      | none => none
  | _ => none

/-- ToUint8 coercion applied by `new Uint8Array(array)` to each element. -/
def toUint8 (i : Int) : Nat := (i % 256).toNat

/-- `new Uint8Array(JSON.parse(privateKey))` for a bracketed key line. -/
def jsonArrayBytes (s : List Char) : Option (List Nat) :=
  (parseJsonIntArray s).map (fun l => l.map toUint8)

/-- `privateKey.match(/.{1,2}/g).map(byte => parseInt(byte, 16))` on a hex
string: consecutive pairs of hex digits become bytes. -/
def hexPairsToBytes : List Char → List Nat
  | [] => []
  | [a] => [hexDigitVal a]
  | a :: b :: rest => (hexDigitVal a * 16 + hexDigitVal b) :: hexPairsToBytes rest

/-- Errors raised by `getWalletData`, carrying the exact message strings of
the source. -/
inductive KeyErr
  | invalidArray
  | invalidHex
  | invalidBase58
  | invalidKey (msg : String)
deriving DecidableEq

/-- Message text of each `getWalletData` error. -/
def KeyErr.message : KeyErr → String
  | .invalidArray => "Invalid array format private key"
  | .invalidHex => "Invalid hex format private key"
  | .invalidBase58 => "Invalid base58 format private key"
  | .invalidKey m => "Invalid private key: " ++ m

/-- Whether the error message names the key format whose decode was
attempted (the `Invalid private key:` message from keypair construction
does not). -/
def KeyErr.namesFormat : KeyErr → Bool
  | .invalidKey _ => false
  | _ => true

/-- Message of `Keypair.fromSecretKey` when the byte length is not 64. -/
def badSecretKeySizeMsg : String := "bad secret key size"

/-- Message of `Keypair.fromSecretKey` when the public-key half does not
match the private half. -/
def invalidSecretKeyMsg : String := "provided secretKey is invalid"

/-- Model of `Keypair.fromSecretKey` (`@solana/web3.js`): requires 64 bytes,
validates that the trailing 32 bytes equal the public key derived from the
leading 32 (the derivation is abstracted as the oracle `ed`), and returns the
public-key bytes. -/
def fromSecretKey (ed : List Nat → Bool) (bytes : List Nat) :
    Except String (List Nat) :=
  if bytes.length ≠ 64 then .error badSecretKeySizeMsg
  else if ed bytes then .ok (bytes.drop 32)
  else .error invalidSecretKeyMsg

/-- Parsed wallet data returned by `getWalletData` in `src/checker.js`:
either an Ethereum wallet (type `'ethereum'`, address only retained by the
checker) or a Solana wallet (type `'solana'`, base58 public key and the raw
secret-key bytes). -/
inductive WalletData
  | ethereum (address : List Char)
  | solana (wallet : List Char) (privateKeyBytes : List Nat)
deriving DecidableEq

/-- Model of `getWalletData` from `src/checker.js`.  `ethAddr` abstracts the
ethers address derivation (`new Wallet(cleanKey).address`); `ed` abstracts
the ed25519 consistency check of `Keypair.fromSecretKey`.  The first branch
mirrors the try/catch around the Ethereum attempt: when the 64-hex test
passes but `new Wallet` rejects the scalar, control falls through to the
Solana formats. -/
def getWalletData (ethAddr : List Char → List Char) (ed : List Nat → Bool)
    (privateKey : List Char) : Except KeyErr WalletData :=
  let cleanKey := removeFirstOx (jsTrim privateKey)
  if isHex64 cleanKey && ethKeyOk cleanKey then
    .ok (.ethereum (ethAddr cleanKey))
  else
    let pk := jsTrim privateKey
    let bytesE : Except KeyErr (List Nat) :=
      if isBracketed pk then
        match jsonArrayBytes pk with
        | some bs => .ok bs
        | none => .error .invalidArray
      else if isHex128 pk then .ok (hexPairsToBytes pk)
      else
        match base58Decode pk with
        | some bs => .ok bs
        | none => .error .invalidBase58
    match bytesE with
    | .error e => .error e
    | .ok bytes =>
      match fromSecretKey ed bytes with
      | .ok pub => .ok (.solana (base58Encode pub) bytes)
      | .error m => .error (.invalidKey m)

/-- Model of the legacy `getWalletData` from `src/unnamed/part_000`
(lines 15-57): same Solana formats, but no Ethereum private-key branch.
Returns `(wallet, privateKeyBytes)`. -/
def getWalletDataLegacy (ed : List Nat → Bool) (privateKey : List Char) :
    Except KeyErr (List Char × List Nat) :=
  let pk := jsTrim privateKey
  let bytesE : Except KeyErr (List Nat) :=
    if isBracketed pk then
      match jsonArrayBytes pk with
      | some bs => .ok bs
      | none => .error .invalidArray
    else if isHex128 pk then .ok (hexPairsToBytes pk)
    else
      match base58Decode pk with
      | some bs => .ok bs
      | none => .error .invalidBase58
  match bytesE with
  | .error e => .error e
  | .ok bytes =>
    match fromSecretKey ed bytes with
    | .ok pub => .ok (base58Encode pub, bytes)
    | .error m => .error (.invalidKey m)

/-- Body of `GET /auth/message`: `{ message, signingDate }`. -/
structure AuthMsg where
  message : List Char
  signingDate : List Char
deriving DecidableEq

/-- Body of `POST /auth/token`; only the `isValid` field is ever consulted
(and only by the legacy checker).  `none` models a response lacking the
field. -/
structure TokenResp where
  isValid : Option Bool
deriving DecidableEq

/-- One category descriptor from the eligibility response. -/
structure Category where
  category : String
deriving DecidableEq

/-- Body of `POST /eligibility`: `{ total, categories }`; `none` models a
response lacking the `categories` field (handled by `|| []` in the checker). -/
structure EligResp where
  total : Int
  categories : Option (List Category)
deriving DecidableEq

/-- The remote calls a wallet pipeline can make, recorded as a trace. -/
inductive ApiCall
  | authMessage
  | authToken
  | eligibility (address : List Char)
deriving DecidableEq

/-- Environment of one `checkWallet` invocation: the two abstracted
cryptographic primitives, the signing function (`signMessage`, whose output
is only forwarded to the token endpoint), and the outcomes of the three
network helpers `getAuthMessage`, `getAuthToken`, `checkPenguEligibility`
(each outcome is taken after that helper's own 429-retry loop, which is
modelled separately by `fetchLoop`). -/
structure Env where
  ethAddr : List Char → List Char
  sign : List Char → List Nat → List Char
  ed : List Nat → Bool
  authMessage : Except String AuthMsg
  authToken : Except String TokenResp
  elig : List Char → Except String EligResp

/-- Per-wallet result object of `checkWallet`: the success literal has the
fields `wallet`, `status`, `eligible`, `tokens`, `categories`; the error
literal has `wallet`, `status`, `error`. -/
inductive CheckResult
  | success (wallet : List Char) (eligible : Bool) (tokens : Int)
      (categories : List Category)
  | error (wallet : List Char) (msg : String)
deriving DecidableEq

/-- The `status` field of a result. -/
def CheckResult.statusOf : CheckResult → String
  | .success .. => "success"
  | .error .. => "error"

/-- The `wallet` field of a result. -/
def CheckResult.walletOf : CheckResult → List Char
  | .success w .. => w
  | .error w _ => w

/-- The `eligible` field of a result (absent, hence falsy, on errors). -/
def CheckResult.eligibleOf : CheckResult → Bool
  | .success _ e _ _ => e
  | .error .. => false

/-- Model of `checkWallet` from `src/checker.js` (lines 172-225), returning
the result together with the trace of remote calls made.  A bare Ethereum
address skips parsing and auth; an Ethereum private key skips auth; a Solana
key runs the full auth sequence — and the body of the token response is
discarded (`await getAuthToken(...)` without using its value).  Every failure
is caught and mapped to an error result whose `wallet` field is the address
resolved so far (`'Unknown'` before parsing succeeds). -/
def checkWallet (env : Env) (input : List Char) : CheckResult × List ApiCall :=
  if isValidEthereumAddress input then
    match env.elig input with
    | .ok e =>
      (.success input (e.total > 0) e.total (e.categories.getD []),
        [.eligibility input])
    | .error m => (.error input m, [.eligibility input])
  else
    match getWalletData env.ethAddr env.ed input with
    | .error e => (.error "Unknown".toList e.message, [])
    | .ok (.ethereum addr) =>
      match env.elig addr with
      | .ok e =>
        (.success addr (e.total > 0) e.total (e.categories.getD []),
          [.eligibility addr])
      | .error m => (.error addr m, [.eligibility addr])
    | .ok (.solana wallet keyBytes) =>
      match env.authMessage with
      | .error m => (.error wallet m, [.authMessage])
      | .ok am =>
        let _sig := env.sign am.message keyBytes
        match env.authToken with
        | .error m => (.error wallet m, [.authMessage, .authToken])
        | .ok _tok =>
          match env.elig wallet with
          | .ok e =>
            (.success wallet (e.total > 0) e.total (e.categories.getD []),
              [.authMessage, .authToken, .eligibility wallet])
          | .error m =>
            (.error wallet m, [.authMessage, .authToken, .eligibility wallet])

/-- Node's message for reading `.length` of `undefined`, thrown by the legacy
success path when the eligibility response has no `categories` field. -/
def undefinedLengthMsg : String :=
  "Cannot read properties of undefined (reading 'length')"

/-- Model of the legacy `checkWallet` from `src/unnamed/part_000`
(lines 145-182): Solana only, and the token response IS validated —
`if (!tokenData.isValid) throw new Error('Invalid token')` before the
eligibility query. -/
def checkWalletLegacy (env : Env) (input : List Char) :
    CheckResult × List ApiCall :=
  match getWalletDataLegacy env.ed input with
  | .error e => (.error "Unknown".toList e.message, [])
  | .ok (wallet, keyBytes) =>
    match env.authMessage with
    | .error m => (.error wallet m, [.authMessage])
    | .ok am =>
      let _sig := env.sign am.message keyBytes
      match env.authToken with
      | .error m => (.error wallet m, [.authMessage, .authToken])
      | .ok tok =>
        if tok.isValid == some true then
          match env.elig wallet with
          | .ok e =>
            match e.categories with
            | some cs =>
              (.success wallet (e.total > 0) e.total
                  (if 0 < cs.length then cs else []),
                [.authMessage, .authToken, .eligibility wallet])
            | none =>
              (.error wallet undefinedLengthMsg,
                [.authMessage, .authToken, .eligibility wallet])
          | .error m =>
            (.error wallet m, [.authMessage, .authToken, .eligibility wallet])
        else (.error wallet "Invalid token", [.authMessage, .authToken])

/-- Model of the input preparation in `main`:
`fs.readFileSync(...).split('\n').map(line => line.trim()).filter(line => line.length > 0)`. -/
def readKeys (text : List Char) : List (List Char) :=
  ((text.splitOn '\n').map jsTrim).filter (fun l => 0 < l.length)

/-- Fuelled worker for `chunks`; each step consumes at least one element,
so fuel equal to the list length always suffices. -/
def chunksAux : Nat → Nat → List α → List (List α)
  | 0, _, _ => []
  | fuel + 1, n, l =>
    match l with
    | [] => []
    | x :: xs => (x :: xs).take n :: chunksAux fuel n (xs.drop (n - 1))

/-- Fixed-size windows of a list: `chunks n l = [l.take n, ...]`, mirroring
`privateKeys.slice(i, i + batchSize)` for `i = 0, n, 2n, ...`.  (For `n ≥ 1`
the recursive argument `xs.drop (n - 1)` equals `(x :: xs).drop n`.) -/
def chunks (n : Nat) (l : List α) : List (List α) := chunksAux l.length n l

/-- Model of the batch loop of `main` (`src/checker.js` lines 244-280):
windows of 5 processed by `Promise.all` (which resolves to the results in
the positional order of its argument array), appended window after window
by `results.push(...batchResults)`. -/
def runBatches (f : List Char → β) (keys : List (List Char)) : List β :=
  ((chunks 5 keys).map (fun b => b.map f)).flatten

/-- The `successful` counter of `main`: one increment per result with
`status === 'success'`. -/
def countSuccessful (rs : List CheckResult) : Nat :=
  (rs.filter (fun r => r.statusOf == "success")).length

/-- The `failed` counter of `main`: one increment per result whose status is
not `'success'`. -/
def countFailed (rs : List CheckResult) : Nat :=
  (rs.filter (fun r => !(r.statusOf == "success"))).length

/-- The `eligible` counter of `main`: incremented inside the success branch
when `result.eligible` is truthy. -/
def countEligible (rs : List CheckResult) : Nat :=
  (rs.filter (fun r => r.statusOf == "success" && r.eligibleOf)).length

/-- An HTTP response as seen by the retry loops: status code and the parsed
body the handler would return. -/
structure HttpResp (α : Type) where
  status : Nat
  body : α
deriving DecidableEq

/-- `response.ok` of the Fetch API: status in the range 200-299. -/
def respOk (r : HttpResp α) : Bool :=
  (200 ≤ r.status : Bool) && (r.status < 300 : Bool)

/-- Terminal outcome of one of the fetching helpers. -/
inductive FetchOutcome (α : Type)
  | success (delayMs : Nat) (body : α)
  | httpError (delayMs : Nat) (status : Nat)
  | diverge
deriving DecidableEq

/-- Common body of `getAuthMessage`, `getAuthToken` and
`checkPenguEligibility`: on `!response.ok` with status 429, wait 2000 ms and
retry the same request recursively; on any other non-ok status, fail.
`respAt k` is the response the service gives to the k-th attempt; the fuel
argument only truncates the otherwise unbounded recursion (`diverge` marks
exhaustion), and the accumulated delay is carried along. -/
def fetchLoop (respAt : Nat → HttpResp α) : Nat → Nat → Nat → FetchOutcome α
  | 0, _, _ => .diverge
  | fuel + 1, attempt, acc =>
    let r := respAt attempt
    if respOk r then .success acc r.body
    else if r.status == 429 then fetchLoop respAt fuel (attempt + 1) (acc + 2000)
    else .httpError acc r.status

/-- Retry behaviour of `getAuthMessage` (`src/checker.js` lines 92-110). -/
def getAuthMessageLoop (respAt : Nat → HttpResp AuthMsg) (fuel : Nat) :
    FetchOutcome AuthMsg :=
  fetchLoop respAt fuel 0 0

/-- Retry behaviour of `getAuthToken` (`src/checker.js` lines 112-141). -/
def getAuthTokenLoop (respAt : Nat → HttpResp TokenResp) (fuel : Nat) :
    FetchOutcome TokenResp :=
  fetchLoop respAt fuel 0 0

/-- Retry behaviour of `checkPenguEligibility` (`src/checker.js`
lines 143-165). -/
def checkPenguEligibilityLoop (respAt : Nat → HttpResp EligResp) (fuel : Nat) :
    FetchOutcome EligResp :=
  fetchLoop respAt fuel 0 0

/-- The five key formats distinguished by the checker. -/
inductive KeyFormat
  | bareAddress
  | ethKey
  | solArray
  | solHex
  | solBase58
deriving DecidableEq

/-- Routing function of `checkWallet` + `getWalletData`: which format's
handler terminally processes a given input.  It transcribes the branch
structure of the source, including the try/catch fallthrough: a 64-hex key
whose scalar `new Wallet` rejects is NOT handled by the Ethereum branch but
falls through to the Solana formats. -/
def codeClassify (s : List Char) : KeyFormat :=
  if isValidEthereumAddress s then .bareAddress
  else
    let clean := removeFirstOx (jsTrim s)
    if isHex64 clean && ethKeyOk clean then .ethKey
    else
      let t := jsTrim s
      if isBracketed t then .solArray
      else if isHex128 t then .solHex
      else .solBase58

/-- Modelled from the spec: the classifier the claim describes — formats
tried in the order bare address, bracketed JSON array, exactly 64 hex
characters optionally `0x`-prefixed (Ethereum), exactly 128 hex characters,
Base58, first match winning. -/
def claimClassify (s : List Char) : KeyFormat :=
  if isValidEthereumAddress s then .bareAddress
  else if isBracketed s then .solArray
  else if isHex64 s || (match s with
      | '0' :: 'x' :: r => isHex64 r
      | _ => false) then .ethKey
  else if isHex128 s then .solHex
  else .solBase58

/-- Modelled from the spec, amended: same order as the claim, but the
Ethereum matcher accepts a string that is 64 hex characters after removing
the first occurrence of `0x` anywhere AND whose scalar is a valid secp256k1
key; a 64-hex string failing key construction falls through (ending at the
Base58 branch). -/
def amendedClassify (s : List Char) : KeyFormat :=
  if isValidEthereumAddress s then .bareAddress
  else if isBracketed (jsTrim s) then .solArray
  else if isHex64 (removeFirstOx (jsTrim s)) &&
      ethKeyOk (removeFirstOx (jsTrim s)) then .ethKey
  else if isHex128 (jsTrim s) then .solHex
  else .solBase58

/-- The field names of the JSON objects `JSON.stringify` persists for a run:
every result literal in `checkWallet` carries exactly these keys. -/
def allowedResultFields : List String :=
  ["wallet", "status", "eligible", "tokens", "categories", "error"]

/-- Keys of the object literal `checkWallet` returns for each result shape
(`src/checker.js` lines 180-186, 209-215 for success; 219-223 for error). -/
def recordKeys : CheckResult → List String
  | .success .. => ["wallet", "status", "eligible", "tokens", "categories"]
  | .error .. => ["wallet", "status", "error"]

/-- A concrete environment for witnesses and counterexamples: constant
oracles, successful auth calls, and an eligibility service reporting a total
of 5 tokens with no categories. -/
def demoEnv : Env :=
  ⟨fun _ => [], fun _ _ => [], fun _ => true, .ok ⟨[], []⟩, .ok ⟨some true⟩,
    fun _ => .ok ⟨5, some []⟩⟩

/-- 64 `'0'` characters: matches the 64-hex Ethereum matcher but is an
invalid secp256k1 scalar (zero). -/
def zeros64 : List Char := List.replicate 64 '0'

/-- 128 `'0'` characters: a Solana hex-format secret key of all zero bytes. -/
def zeros128 : List Char := List.replicate 128 '0'

/-- The bare Ethereum address of the spec's example scenario. -/
def demoBareAddr : List Char :=
  "0xAbCdEf0123456789abcdef0123456789ABCDEF01".toList

/-- A three-line input file: a valid bare address, a malformed key, another
valid bare address — the spec's isolation scenario. -/
def demoText : List Char :=
  ("0xAbCdEf0123456789abcdef0123456789ABCDEF01" ++ "\n" ++ "[1,2,3]" ++ "\n"
    ++ "0xaaaaaaaaaaaaaaaaaaaaaaaaaaaaaaaaaaaaaaaa").toList

/-- A response stream whose first attempt is rate-limited and whose second
attempt succeeds. -/
def demoRespA : Nat → HttpResp AuthMsg :=
  fun k => if k == 0 then ⟨429, ⟨[], []⟩⟩ else ⟨200, ⟨[], []⟩⟩

/-- Any fuel at least the list length makes `chunksAux` chunk the whole
list: flattening gives the original list back (positive window size). -/
theorem chunksAux_flatten (n : Nat) :
    ∀ (fuel : Nat) (l : List α), l.length ≤ fuel →
      (chunksAux fuel (n + 1) l).flatten = l := by
  intro fuel
  induction fuel with
  | zero =>
    intro l h
    have hl : l = [] := List.eq_nil_of_length_eq_zero (Nat.le_zero.mp h)
    simp [hl, chunksAux]
  | succ fuel ih =>
    intro l h
    cases l with
    | nil => simp [chunksAux]
    | cons x xs =>
      rw [chunksAux]
      simp only [List.length_cons] at h
      have hle : (xs.drop (n + 1 - 1)).length ≤ fuel := by
        simp only [List.length_drop]; omega
      rw [List.flatten_cons, ih _ hle]
      simp only [Nat.add_sub_cancel, List.take_succ_cons, List.cons_append,
        List.cons.injEq, true_and]
      exact List.take_append_drop n xs

/-- Windows of positive size lose nothing: flattening the chunks gives the
original list back. -/
theorem chunks_flatten (n : Nat) (l : List α) :
    (chunks (n + 1) l).flatten = l :=
  chunksAux_flatten n l.length l (Nat.le_refl _)

/-- The window loop of `main` is an order-preserving map: each input line
yields the result of its own pipeline, at its own position. -/
theorem runBatches_eq_map (f : List Char → β) (keys : List (List Char)) :
    runBatches f keys = keys.map f := by
  unfold runBatches
  rw [← List.map_flatten]
  exact congrArg (List.map f) (chunks_flatten 4 keys)

/-- A trimmed input that starts with `'['` can never pass the 64-hex test,
even after removal of a first `0x` occurrence: the bracket survives. -/
theorem not_hex64_of_head_lbracket (t : List Char)
    (h : t.head? = some '[') : isHex64 (removeFirstOx t) = false := by
  cases t with
  | nil => simp at h
  | cons c rest =>
    simp only [List.head?_cons, Option.some.injEq] at h
    subst h
    cases rest with
    | nil => decide
    | cons c2 r2 =>
      rw [removeFirstOx]
      have hc : (('[' == '0') && (c2 == 'x')) = false := by
        simp [show ('[' == '0') = false from by decide]
      rw [hc]
      simp [isHex64, show isHexDigitCh '[' = false from by decide]

/-- A 429 status is never `ok`. -/
theorem respOk_of_429 (r : HttpResp α) (h : r.status = 429) :
    respOk r = false := by
  simp [respOk, h]

/-- If the first `n` attempts are rate-limited and attempt `n` is ok, the
retry loop succeeds with the body of attempt `n` after `n` fixed 2000 ms
delays (given enough fuel). -/
theorem fetchLoop_success (respAt : Nat → HttpResp α) (n : Nat) :
    ∀ (fuel attempt acc : Nat),
      (∀ k, k < n → (respAt (attempt + k)).status = 429) →
      respOk (respAt (attempt + n)) = true → n < fuel →
      fetchLoop respAt fuel attempt acc =
        .success (acc + 2000 * n) (respAt (attempt + n)).body := by
  induction n with
  | zero =>
    intro fuel attempt acc _ hok hfuel
    match fuel, hfuel with
    | fuel + 1, _ =>
      rw [fetchLoop]
      simp only [Nat.add_zero] at hok
      simp [hok]
  | succ n ih =>
    intro fuel attempt acc h429 hok hfuel
    match fuel, hfuel with
    | fuel + 1, hfuel =>
      rw [fetchLoop]
      have h0 : (respAt attempt).status = 429 := by
        have := h429 0 (Nat.succ_pos n); simpa using this
      simp only [respOk_of_429 _ h0, Bool.false_eq_true, if_false, h0,
        beq_self_eq_true, if_true]
      have hstep := ih fuel (attempt + 1) (acc + 2000)
        (fun k hk => by
          have := h429 (k + 1) (Nat.succ_lt_succ hk)
          simpa [Nat.add_assoc, Nat.add_comm 1 k] using this)
        (by
          have : attempt + 1 + n = attempt + (n + 1) := by omega
          rw [this]; exact hok)
        (by omega)
      rw [hstep]
      have h1 : attempt + 1 + n = attempt + (n + 1) := by omega
      have h2 : acc + 2000 + 2000 * n = acc + 2000 * (n + 1) := by ring
      rw [h1, h2]

/-- The retry loop never reports an HTTP error with status 429: rate limits
are always retried, never surfaced. -/
theorem fetchLoop_no_429_error (respAt : Nat → HttpResp α) :
    ∀ (fuel attempt acc d st : Nat),
      fetchLoop respAt fuel attempt acc = .httpError d st → st ≠ 429 := by
  intro fuel
  induction fuel with
  | zero => intro attempt acc d st h; rw [fetchLoop] at h; cases h
  | succ fuel ih =>
    intro attempt acc d st h
    rw [fetchLoop] at h
    by_cases hok : respOk (respAt attempt) = true
    · simp [hok] at h
    · simp only [hok, Bool.false_eq_true, if_false] at h
      by_cases h429 : ((respAt attempt).status == 429) = true
      · rw [if_pos h429] at h
        exact ih (attempt + 1) (acc + 2000) d st h
      · rw [if_neg h429] at h
        cases h
        simpa using h429

/-- Under sustained rate limiting the loop never terminates: for every fuel
bound it is still retrying (the source recursion has no attempt bound). -/
theorem fetchLoop_all429_diverge (respAt : Nat → HttpResp α)
    (hall : ∀ k, (respAt k).status = 429) :
    ∀ (fuel attempt acc : Nat), fetchLoop respAt fuel attempt acc = .diverge := by
  intro fuel
  induction fuel with
  | zero => intro attempt acc; rw [fetchLoop]
  | succ fuel ih =>
    intro attempt acc
    rw [fetchLoop]
    simp only [respOk_of_429 _ (hall attempt), Bool.false_eq_true, if_false,
      hall attempt, beq_self_eq_true, if_true]
    exact ih (attempt + 1) (acc + 2000)

/-- Every result is counted either successful or failed, never both. -/
theorem count_partition (rs : List CheckResult) :
    countSuccessful rs + countFailed rs = rs.length := by
  induction rs with
  | nil => rfl
  | cons r rs ih =>
    unfold countSuccessful countFailed at *
    cases r with
    | success w e t c => simp [List.filter, CheckResult.statusOf] at *; omega
    | error w m => simp [List.filter, CheckResult.statusOf] at *; omega

/-- The eligible counter counts a subset of the successful results. -/
theorem count_eligible_le (rs : List CheckResult) :
    countEligible rs ≤ countSuccessful rs := by
  induction rs with
  | nil => exact Nat.le_refl 0
  | cons r rs ih =>
    unfold countEligible countSuccessful at *
    by_cases hs : (r.statusOf == "success") = true
    · by_cases he : r.eligibleOf = true
      · simp [List.filter, hs, he]; omega
      · simp [List.filter, hs, he]; omega
    · simp [List.filter, hs]; exact ih

/-- Claim C1 (counterexample): on a Solana hex key (128 zero digits, with the
consistency oracle accepting), a token response LACKING the valid-token flag
(`isValid` absent) is not treated as failure by `checkWallet` in
`src/checker.js`: the result is a success and the eligibility endpoint is
still called. -/
theorem invalid_token_still_succeeds_cex :
    (checkWallet { demoEnv with authToken := .ok ⟨none⟩ } zeros128).1 =
      .success (List.replicate 32 '1') true 5 [] ∧
    ApiCall.eligibility (List.replicate 32 '1') ∈
      (checkWallet { demoEnv with authToken := .ok ⟨none⟩ } zeros128).2 := by
  decide

/-- Claim C1 (amended): `checkWallet` in `src/checker.js` discards the body
of the token response — the outcome is identical for every token body, valid
flag or not, and the pipeline proceeds to the eligibility query; only the
legacy checker of `src/unnamed/part_000` fails with `Invalid token` (before
any eligibility call) when `isValid` is not `true`. -/
theorem token_body_ignored :
    (∀ (env : Env) (t t' : TokenResp) (input : List Char),
        checkWallet { env with authToken := .ok t } input =
          checkWallet { env with authToken := .ok t' } input) ∧
    (∀ (env : Env) (input wallet : List Char) (kb : List Nat)
        (am : AuthMsg) (tok : TokenResp),
        getWalletDataLegacy env.ed input = .ok (wallet, kb) →
        env.authMessage = .ok am → env.authToken = .ok tok →
        tok.isValid ≠ some true →
        checkWalletLegacy env input =
          (.error wallet "Invalid token", [.authMessage, .authToken])) := by
  constructor
  · intro env t t' input
    rfl
  · intro env input wallet kb am tok hparse ham htok hval
    unfold checkWalletLegacy
    rw [hparse, ham, htok]
    have hne : (tok.isValid == some true) = false := by
      simpa [beq_eq_false_iff_ne] using hval
    simp [hne]

/-- Claim C1 (witness): the amended theorem applied at a concrete
environment and key. -/
theorem token_body_ignored_witness :
    checkWalletLegacy { demoEnv with authToken := .ok ⟨none⟩ } zeros128 =
      (.error (List.replicate 32 '1') "Invalid token",
        [.authMessage, .authToken]) :=
  token_body_ignored.2 _ zeros128 (List.replicate 32 '1')
    (List.replicate 64 0) ⟨[], []⟩ ⟨none⟩ (by decide) rfl rfl (by decide)

/-- Claim C2 (counterexample): 64 `'0'` characters match the claim's format
3 (exactly 64 hex characters) while no earlier format matches, yet the code
routes the input to the Base58 handler (format 5), because `new Wallet`
rejects the zero scalar and the try/catch falls through — a later format
takes precedence over an earlier matching one, refuting the claimed
first-match-wins order. -/
theorem key_order_cex :
    claimClassify zeros64 = .ethKey ∧ codeClassify zeros64 = .solBase58 ∧
    getWalletData (fun _ => []) (fun _ => true) zeros64 =
      .error .invalidBase58 := by
  decide

/-- Claim C2 (amended): the detection order holds once the Ethereum matcher
is read from the code: it accepts strings that are 64 hex characters after
removing the first occurrence of `0x` anywhere AND whose scalar is a valid
secp256k1 key, and a 64-hex string failing key construction falls through to
the Base58 branch.  With that matcher, the code's routing equals the ordered
first-match classifier. -/
theorem key_order_amended (s : List Char) :
    codeClassify s = amendedClassify s := by
  unfold codeClassify amendedClassify
  by_cases hb : isValidEthereumAddress s = true
  · simp [hb]
  · simp only [Bool.not_eq_true] at hb
    simp only [hb, Bool.false_eq_true, if_false]
    by_cases hbr : isBracketed (jsTrim s) = true
    · have hbh : (jsTrim s).head? = some '[' := by
        have h2 := hbr
        unfold isBracketed at h2
        simp only [Bool.and_eq_true, beq_iff_eq] at h2
        exact h2.1
      have h64 := not_hex64_of_head_lbracket _ hbh
      simp [hbr, h64]
    · simp only [Bool.not_eq_true] at hbr
      simp [hbr]

/-- Claim C3 (counterexample): the malformed input `[1,2,3]` (wrong length)
makes `getWalletData` fail with `Invalid private key: bad secret key size`,
an error that names no format — not a format-specific error. -/
theorem generic_key_error_cex :
    getWalletData (fun _ => []) (fun _ => true) "[1,2,3]".toList =
      .error (.invalidKey badSecretKeySizeMsg) ∧
    KeyErr.namesFormat (.invalidKey badSecretKeySizeMsg) = false ∧
    (KeyErr.invalidKey badSecretKeySizeMsg).message =
      "Invalid private key: bad secret key size" := by
  decide

/-- Claim C3 (amended): decode-stage failures of `getWalletData` raise
format-naming errors (array or base58; the hex branch cannot fail), but when
decoded bytes fail Solana keypair construction the error is the
format-agnostic `Invalid private key: <reason>` with reason either
`bad secret key size` or `provided secretKey is invalid`. -/
theorem key_error_taxonomy (ethAddr : List Char → List Char)
    (ed : List Nat → Bool) (s : List Char) (e : KeyErr)
    (h : getWalletData ethAddr ed s = .error e) :
    (e.namesFormat = true ∧ (e = .invalidArray ∨ e = .invalidBase58)) ∨
    (e.namesFormat = false ∧
      (e = .invalidKey badSecretKeySizeMsg ∨
        e = .invalidKey invalidSecretKeyMsg)) := by
  unfold getWalletData at h
  dsimp only at h
  split at h
  · cases h
  · split at h
    · rename_i e2 heq
      cases h
      split at heq
      · split at heq
        · cases heq
        · cases heq
          left; exact ⟨rfl, Or.inl rfl⟩
      · split at heq
        · cases heq
        · split at heq
          · cases heq
          · cases heq
            left; exact ⟨rfl, Or.inr rfl⟩
    · rename_i bytes heq
      split at h
      · cases h
      · rename_i m heq2
        cases h
        unfold fromSecretKey at heq2
        split at heq2
        · cases heq2
          right; exact ⟨rfl, Or.inl rfl⟩
        · split at heq2
          · cases heq2
          · cases heq2
            right; exact ⟨rfl, Or.inr rfl⟩

/-- Claim C3 (witness): the taxonomy applied at the concrete malformed
input `[1,2,3]`. -/
theorem key_error_taxonomy_witness :
    ((KeyErr.invalidKey badSecretKeySizeMsg).namesFormat = true ∧
      (KeyErr.invalidKey badSecretKeySizeMsg = .invalidArray ∨
        KeyErr.invalidKey badSecretKeySizeMsg = .invalidBase58)) ∨
    ((KeyErr.invalidKey badSecretKeySizeMsg).namesFormat = false ∧
      (KeyErr.invalidKey badSecretKeySizeMsg =
          .invalidKey badSecretKeySizeMsg ∨
        KeyErr.invalidKey badSecretKeySizeMsg =
          .invalidKey invalidSecretKeyMsg)) :=
  key_error_taxonomy (fun _ => []) (fun _ => true) "[1,2,3]".toList _
    (by decide)

/-- Claim C4: the batch loop of `main` yields exactly one result per
non-blank input line, and the result at index `k` is the pipeline output of
input line `k` — input order is preserved across windows (the window design
synchronises on `Promise.all`, whose resolution order is positional). -/
theorem batch_order_preserved {β : Type} (f : List Char → β)
    (text : List Char) :
    runBatches f (readKeys text) = (readKeys text).map f ∧
    ∀ k : Nat,
      (runBatches f (readKeys text))[k]? = ((readKeys text)[k]?).map f := by
  refine ⟨runBatches_eq_map f (readKeys text), fun k => ?_⟩
  rw [runBatches_eq_map, List.getElem?_map]

/-- Claim C5: a failing wallet is caught inside its own pipeline: on the
spec's scenario `[valid1, "garbage", valid2]` (one window of size three) the
results are exactly one Failed entry between two Succeeded ones, and in
general each position's result depends only on that position's input. -/
theorem failing_wallet_isolated :
    ((runBatches (fun k => (checkWallet demoEnv k).1) (readKeys demoText)).map
        CheckResult.statusOf = ["success", "error", "success"]) ∧
    (∀ (env : Env) (keys : List (List Char)) (k : Nat),
      (runBatches (fun s => (checkWallet env s).1) keys)[k]? =
        (keys[k]?).map (fun s => (checkWallet env s).1)) := by
  constructor
  · decide
  · intro env keys k
    rw [runBatches_eq_map, List.getElem?_map]

/-- Claim C6: the summary counters partition the results: successful plus
failed equals the number of non-blank input lines, and eligible never
exceeds successful. -/
theorem summary_partition (env : Env) (text : List Char) :
    countSuccessful
        (runBatches (fun s => (checkWallet env s).1) (readKeys text)) +
      countFailed (runBatches (fun s => (checkWallet env s).1) (readKeys text))
      = (readKeys text).length ∧
    countEligible
        (runBatches (fun s => (checkWallet env s).1) (readKeys text)) ≤
      countSuccessful
        (runBatches (fun s => (checkWallet env s).1) (readKeys text)) := by
  constructor
  · rw [count_partition, runBatches_eq_map, List.length_map]
  · exact count_eligible_le _

/-- Claim C7: each of the three request helpers, on HTTP 429, waits a fixed
2000 ms and retries the same request recursively: `n` leading 429 responses
followed by a success produce the success after `n` delays of 2000 ms; a 429
is never surfaced as an error outcome; and under unbroken 429 responses the
loop never terminates (no attempt bound: it is still retrying at every fuel
level). -/
theorem rate_limit_retry :
    (∀ (respAt : Nat → HttpResp AuthMsg) (n fuel : Nat),
        (∀ k, k < n → (respAt k).status = 429) → respOk (respAt n) = true →
        n < fuel →
        getAuthMessageLoop respAt fuel = .success (2000 * n) (respAt n).body) ∧
    (∀ (respAt : Nat → HttpResp TokenResp) (n fuel : Nat),
        (∀ k, k < n → (respAt k).status = 429) → respOk (respAt n) = true →
        n < fuel →
        getAuthTokenLoop respAt fuel = .success (2000 * n) (respAt n).body) ∧
    (∀ (respAt : Nat → HttpResp EligResp) (n fuel : Nat),
        (∀ k, k < n → (respAt k).status = 429) → respOk (respAt n) = true →
        n < fuel →
        checkPenguEligibilityLoop respAt fuel =
          .success (2000 * n) (respAt n).body) ∧
    (∀ (respAt : Nat → HttpResp AuthMsg) (fuel d : Nat),
        getAuthMessageLoop respAt fuel ≠ .httpError d 429) ∧
    (∀ (respAt : Nat → HttpResp TokenResp) (fuel d : Nat),
        getAuthTokenLoop respAt fuel ≠ .httpError d 429) ∧
    (∀ (respAt : Nat → HttpResp EligResp) (fuel d : Nat),
        checkPenguEligibilityLoop respAt fuel ≠ .httpError d 429) ∧
    (∀ (respAt : Nat → HttpResp AuthMsg) (fuel : Nat),
        (∀ k, (respAt k).status = 429) →
        getAuthMessageLoop respAt fuel = .diverge) ∧
    (∀ (respAt : Nat → HttpResp TokenResp) (fuel : Nat),
        (∀ k, (respAt k).status = 429) →
        getAuthTokenLoop respAt fuel = .diverge) ∧
    (∀ (respAt : Nat → HttpResp EligResp) (fuel : Nat),
        (∀ k, (respAt k).status = 429) →
        checkPenguEligibilityLoop respAt fuel = .diverge) := by
  refine ⟨?_, ?_, ?_, ?_, ?_, ?_, ?_, ?_, ?_⟩
  · intro respAt n fuel h429 hok hfuel
    unfold getAuthMessageLoop
    simpa using fetchLoop_success respAt n fuel 0 0
      (fun k hk => by simpa using h429 k hk) (by simpa using hok) hfuel
  · intro respAt n fuel h429 hok hfuel
    unfold getAuthTokenLoop
    simpa using fetchLoop_success respAt n fuel 0 0
      (fun k hk => by simpa using h429 k hk) (by simpa using hok) hfuel
  · intro respAt n fuel h429 hok hfuel
    unfold checkPenguEligibilityLoop
    simpa using fetchLoop_success respAt n fuel 0 0
      (fun k hk => by simpa using h429 k hk) (by simpa using hok) hfuel
  · intro respAt fuel d h
    exact fetchLoop_no_429_error respAt fuel 0 0 d 429 h rfl
  · intro respAt fuel d h
    exact fetchLoop_no_429_error respAt fuel 0 0 d 429 h rfl
  · intro respAt fuel d h
    exact fetchLoop_no_429_error respAt fuel 0 0 d 429 h rfl
  · intro respAt fuel hall
    exact fetchLoop_all429_diverge respAt hall fuel 0 0
  · intro respAt fuel hall
    exact fetchLoop_all429_diverge respAt hall fuel 0 0
  · intro respAt fuel hall
    exact fetchLoop_all429_diverge respAt hall fuel 0 0

/-- Claim C7 (witness): one rate-limited attempt followed by a success gives
the success after a single 2000 ms delay. -/
theorem rate_limit_retry_witness :
    (∀ k, k < 1 → (demoRespA k).status = 429) ∧
    respOk (demoRespA 1) = true ∧
    getAuthMessageLoop demoRespA 3 = .success 2000 (demoRespA 1).body := by
  refine ⟨by decide, by decide, ?_⟩
  have h := rate_limit_retry.1 demoRespA 1 3 (by decide) (by decide)
    (by decide)
  simpa using h

/-- Claim C8: a bare Ethereum address input makes `checkWallet` call only
the eligibility endpoint, with exactly the input string as the address; no
auth-message fetch and no token submission occur, and the result's wallet
field is the input itself. -/
theorem bare_address_skips_auth (env : Env) (s : List Char)
    (h : isValidEthereumAddress s = true) :
    (checkWallet env s).2 = [.eligibility s] ∧
    (checkWallet env s).1.walletOf = s ∧
    ApiCall.authMessage ∉ (checkWallet env s).2 ∧
    ApiCall.authToken ∉ (checkWallet env s).2 := by
  cases henv : env.elig s with
  | ok e => simp [checkWallet, h, henv, CheckResult.walletOf]
  | error m => simp [checkWallet, h, henv, CheckResult.walletOf]

/-- Claim C8 (witness): the theorem applied at the spec's example address. -/
theorem bare_address_skips_auth_witness :
    isValidEthereumAddress demoBareAddr = true ∧
    (checkWallet demoEnv demoBareAddr).2 = [.eligibility demoBareAddr] ∧
    (checkWallet demoEnv demoBareAddr).1.walletOf = demoBareAddr :=
  ⟨by decide, (bare_address_skips_auth demoEnv demoBareAddr (by decide)).1,
    (bare_address_skips_auth demoEnv demoBareAddr (by decide)).2.1⟩

/-- Claim C9: every result the pipeline produces carries only the fields
wallet, status, eligible, tokens, categories, error; in particular the
signing key material (`privateKeyBytes` / `signingKey`) never appears among
the persisted fields. -/
theorem results_without_key_material (env : Env) (text : List Char)
    (r : CheckResult)
    (h : r ∈ runBatches (fun s => (checkWallet env s).1) (readKeys text)) :
    (∀ f, f ∈ recordKeys r → f ∈ allowedResultFields) ∧
    "privateKeyBytes" ∉ recordKeys r ∧ "signingKey" ∉ recordKeys r := by
  cases r with
  | success w e t c =>
    refine ⟨?_, by simp [recordKeys], by simp [recordKeys]⟩
    intro f hf
    simp only [recordKeys, List.mem_cons, List.not_mem_nil, or_false] at hf
    rcases hf with rfl | rfl | rfl | rfl | rfl <;> decide
  | error w m =>
    refine ⟨?_, by simp [recordKeys], by simp [recordKeys]⟩
    intro f hf
    simp only [recordKeys, List.mem_cons, List.not_mem_nil, or_false] at hf
    rcases hf with rfl | rfl | rfl <;> decide

/-- Claim C9 (witness): the theorem applied to a result actually produced by
the pipeline on the demo input. -/
theorem results_without_key_material_witness :
    (CheckResult.success demoBareAddr true 5 [] ∈
        runBatches (fun s => (checkWallet demoEnv s).1) (readKeys demoText)) ∧
    "privateKeyBytes" ∉ recordKeys (.success demoBareAddr true 5 []) :=
  ⟨by decide,
    (results_without_key_material demoEnv demoText _ (by decide)).2.1⟩

/-- Claim C10: every successful result reports `eligible` exactly when the
reported token total is strictly positive — both fields come from the same
`eligibility.total`. -/
theorem eligible_iff_positive_total (env : Env) (input w : List Char)
    (el : Bool) (tok : Int) (cats : List Category)
    (h : (checkWallet env input).1 = .success w el tok cats) :
    el = decide (tok > 0) := by
  unfold checkWallet at h
  dsimp only at h
  split at h
  · split at h
    · dsimp only at h
      injection h with h1 h2 h3 h4
      subst h2; subst h3; rfl
    · cases h
  · split at h
    · cases h
    · split at h
      · dsimp only at h
        injection h with h1 h2 h3 h4
        subst h2; subst h3; rfl
      · cases h
    · split at h
      · cases h
      · split at h
        · cases h
        · split at h
          · dsimp only at h
            injection h with h1 h2 h3 h4
            subst h2; subst h3; rfl
          · cases h

/-- Claim C10 (witness): the theorem applied to the concrete success result
of the demo pipeline. -/
theorem eligible_iff_positive_total_witness :
    (checkWallet demoEnv demoBareAddr).1 =
      .success demoBareAddr true 5 [] ∧ true = decide ((5 : Int) > 0) :=
  ⟨by decide,
    eligible_iff_positive_total demoEnv demoBareAddr demoBareAddr true 5 []
      (by decide)⟩
